import Mathlib

/-!
# Hogwarts sign-up form: `hogwarts/script.js`

A shallow embedding of the two event listeners of `script.js`:

* the `change` listener of the sorting-hat checkbox, which writes the checkbox
  state into the `disabled` property of every input of the house selection;
* the `submit` listener of the form, which computes an age from the `dob`
  field and the clock, and compares the two password fields.

The listeners call the ECMAScript `Date` object.  Its arithmetic (`Day`,
`DayFromYear`, `YearFromTime`, `MonthFromTime`, `DateFromTime`, `MakeDay`,
`MakeDate`, `TimeClip`, `LocalTime`, `UTC`) is written out below after the
ECMAScript language specification.  Time values are integers (milliseconds
since 1970-01-01T00:00:00Z); every number the script handles is an integer of
magnitude below `2^53` or NaN, so `JSNumber` has exactly these two shapes.

The host (browser and operating system) enters as a parameter `Host`: the
offset of local time from UTC (a fixed offset, without daylight-saving
transitions), the reading of the clock, and what `Date.parse` answers on
strings that are not a calendar date in the form `YYYY-MM-DD`.
-/

namespace Hogwarts

/-! ## Numbers -/

/-- JavaScript Number as the script meets it: NaN or an integer. -/
inductive JSNumber where
  | nan : JSNumber
  | int (v : Int) : JSNumber
  deriving DecidableEq, Repr

namespace JSNumber

/-- Number subtraction `a - b`: NaN as soon as one operand is NaN. -/
def sub : JSNumber → JSNumber → JSNumber
  | int a, int b => int (a - b)
  | _, _ => nan

/-- Relational operator `a < b` on Numbers: false as soon as one operand is NaN. -/
def lt : JSNumber → JSNumber → Bool
  | int a, int b => decide (a < b)
  | _, _ => false

end JSNumber

/-! ## ECMAScript time arithmetic (Date objects, "Time Values and Time Range") -/

def msPerDay : Int := 86400000

/-- Day number of a time value: `floor(t / msPerDay)`. -/
def Day (t : Int) : Int := t / msPerDay

def DaysInYear (y : Int) : Int :=
  if y % 4 ≠ 0 then 365
  else if y % 100 ≠ 0 then 366
  else if y % 400 ≠ 0 then 365
  else 366

/-- Day number of the first day of year `y`. -/
def DayFromYear (y : Int) : Int :=
  365 * (y - 1970) + (y - 1969) / 4 - (y - 1901) / 100 + (y - 1601) / 400

def TimeFromYear (y : Int) : Int := msPerDay * DayFromYear y

/-- Year of a day number: the largest `y` with `DayFromYear y ≤ d`, found from
the estimate `1970 + floor(400 d / 146097)`, which is off by at most one
(`yearOfDay_bracket`, `yearOfDay_unique`). -/
def yearOfDay (d : Int) : Int :=
  let y0 := 1970 + (400 * d) / 146097
  if d < DayFromYear y0 then y0 - 1
  else if DayFromYear (y0 + 1) ≤ d then y0 + 1
  else y0

/-- The largest integer `y` such that `TimeFromYear y ≤ t`. -/
def YearFromTime (t : Int) : Int := yearOfDay (Day t)

/-- One in a leap year, zero otherwise. -/
def leapOfYear (y : Int) : Int := if DaysInYear y = 366 then 1 else 0

def InLeapYear (t : Int) : Int := leapOfYear (YearFromTime t)

def DayWithinYear (t : Int) : Int := Day t - DayFromYear (YearFromTime t)

/-- Month number (0 for January to 11 for December) of day `d` of a year, `l`
being one in a leap year. -/
def monthInYear (l d : Int) : Int :=
  if d < 31 then 0
  else if d < 59 + l then 1
  else if d < 90 + l then 2
  else if d < 120 + l then 3
  else if d < 151 + l then 4
  else if d < 181 + l then 5
  else if d < 212 + l then 6
  else if d < 243 + l then 7
  else if d < 273 + l then 8
  else if d < 304 + l then 9
  else if d < 334 + l then 10
  else 11

def MonthFromTime (t : Int) : Int := monthInYear (InLeapYear t) (DayWithinYear t)

/-- Day of the month (from 1) of day `d` of a year. -/
def dateInYear (l d : Int) : Int :=
  let m := monthInYear l d
  if m = 0 then d + 1
  else if m = 1 then d - 30
  else if m = 2 then d - 58 - l
  else if m = 3 then d - 89 - l
  else if m = 4 then d - 119 - l
  else if m = 5 then d - 150 - l
  else if m = 6 then d - 180 - l
  else if m = 7 then d - 211 - l
  else if m = 8 then d - 242 - l
  else if m = 9 then d - 272 - l
  else if m = 10 then d - 303 - l
  else d - 333 - l

def DateFromTime (t : Int) : Int := dateInYear (InLeapYear t) (DayWithinYear t)

/-- Day within the year on which month `mn` (0 to 11) starts, `l` being one in
a leap year: the lower ends of the ranges of `MonthFromTime`. -/
def monthStart (l mn : Int) : Int :=
  if mn = 0 then 0
  else if mn = 1 then 31
  else if mn = 2 then 59 + l
  else if mn = 3 then 90 + l
  else if mn = 4 then 120 + l
  else if mn = 5 then 151 + l
  else if mn = 6 then 181 + l
  else if mn = 7 then 212 + l
  else if mn = 8 then 243 + l
  else if mn = 9 then 273 + l
  else if mn = 10 then 304 + l
  else 334 + l

/-- The abstract operation `MakeDay(year, month, date)` on integers:
`ym = year + floor(month / 12)`, `mn = month modulo 12`, the time value `t`
with `YearFromTime t = ym`, `MonthFromTime t = mn`, `DateFromTime t = 1` is the
start of day `DayFromYear ym + monthStart _ mn` (`MakeDay_finds`), and the
result is `Day t + date - 1`. -/
def MakeDay (year month date : Int) : Int :=
  let ym := year + month / 12
  let mn := month % 12
  DayFromYear ym + monthStart (leapOfYear ym) mn + date - 1

def MakeDate (day time : Int) : Int := day * msPerDay + time

/-- Largest magnitude of a time value, `8.64 × 10^15`. -/
def maxTime : Int := 8640000000000000

/-- The abstract operation `TimeClip`. -/
def TimeClip (t : Int) : JSNumber :=
  if maxTime < |t| then JSNumber.nan else JSNumber.int t

/-- Local time of a UTC time value, in a zone `tza` milliseconds ahead of UTC. -/
def LocalTime (tza t : Int) : Int := t + tza

/-- The UTC time value of a local time. -/
def UTC (tza t : Int) : Int := t - tza

/-! ## `Date.parse` on the date-only form `YYYY-MM-DD` -/

/-- Value of a decimal digit. -/
def digitValue (c : Char) : Option Int :=
  if c.isDigit then some (c.toNat - 48 : Nat) else none

/-- Reads the fields of a string of the shape `dddd-dd-dd`. -/
def dateOnlyFields (s : String) : Option (Int × Int × Int) :=
  match s.toList with
  | [y1, y2, y3, y4, s1, m1, m2, s2, d1, d2] =>
    if s1 = '-' ∧ s2 = '-' then
      match digitValue y1, digitValue y2, digitValue y3, digitValue y4,
            digitValue m1, digitValue m2, digitValue d1, digitValue d2 with
      | some a, some b, some c, some d, some e, some f, some g, some h =>
        some (1000 * a + 100 * b + 10 * c + d, 10 * e + f, 10 * g + h)
      | _, _, _, _, _, _, _, _ => none
    else none
  | _ => none

/-- Number of days of month `m` (1 to 12), `l` being one in a leap year. -/
def monthDays (l m : Int) : Int :=
  if m = 2 then 28 + l
  else if m = 4 ∨ m = 6 ∨ m = 9 ∨ m = 11 then 30
  else 31

/-- Number of days of month `m` (1 to 12) of year `y`. -/
def DaysInMonth (y m : Int) : Int := monthDays (leapOfYear y) m

/-- Calendar dates: month 1 to 12, day 1 to the length of the month. -/
def ValidDate (y m d : Int) : Prop :=
  1 ≤ m ∧ m ≤ 12 ∧ 1 ≤ d ∧ d ≤ DaysInMonth y m

instance (y m d : Int) : Decidable (ValidDate y m d) :=
  inferInstanceAs (Decidable (1 ≤ m ∧ m ≤ 12 ∧ 1 ≤ d ∧ d ≤ DaysInMonth y m))

/-! ## The host -/

/-- What the script takes from its environment. -/
structure Host where
  /-- Offset of local time from UTC, in milliseconds (positive east of Greenwich). -/
  localTZA : Int
  /-- Time value the clock shows when the listener runs. -/
  now : Int
  /-- Answer of `Date.parse` on a string that is not a calendar date written
  `YYYY-MM-DD` (date-time forms, implementation-defined formats, garbage). -/
  parseOther : String → JSNumber

/-- The function `Date.parse`: a date-only string is the start of that day in UTC. -/
def DateParse (h : Host) (s : String) : JSNumber :=
  match dateOnlyFields s with
  | some (y, m, d) =>
    if ValidDate y m d then JSNumber.int (MakeDate (MakeDay y (m - 1) d) 0)
    else h.parseOther s
  | none => h.parseOther s

/-! ## Date objects -/

/-- Date object: its time value. -/
structure JSDate where
  tv : JSNumber
  deriving DecidableEq, Repr

/-- Clips a Number to a time value. -/
def clipNumber : JSNumber → JSNumber
  | JSNumber.nan => JSNumber.nan
  | JSNumber.int t => TimeClip t

/-- Constructor call `new Date(value)` with a string. -/
def newDateOfString (h : Host) (s : String) : JSDate :=
  ⟨clipNumber (DateParse h s)⟩

/-- Constructor call `new Date()`. -/
def newDateNow (h : Host) : JSDate := ⟨JSNumber.int h.now⟩

/-- The abstract operation `MakeFullYear`: a year from 0 to 99 stands for 1900 + year. -/
def MakeFullYear (y : Int) : Int := if 0 ≤ y ∧ y ≤ 99 then 1900 + y else y

/-- Constructor call `new Date(year, month, date)`: the fields are taken in
local time, at the start of the day; a NaN field makes the date invalid. -/
def newDateOfFields (h : Host) : JSNumber → JSNumber → JSNumber → JSDate
  | JSNumber.int y, JSNumber.int m, JSNumber.int dt =>
    let yr := MakeFullYear y
    let finalDate := MakeDate (MakeDay yr m dt) 0
    ⟨TimeClip (UTC h.localTZA finalDate)⟩
  | _, _, _ => ⟨JSNumber.nan⟩

namespace JSDate

def getFullYear (h : Host) (d : JSDate) : JSNumber :=
  match d.tv with
  | JSNumber.nan => JSNumber.nan
  | JSNumber.int t => JSNumber.int (YearFromTime (LocalTime h.localTZA t))

def getMonth (h : Host) (d : JSDate) : JSNumber :=
  match d.tv with
  | JSNumber.nan => JSNumber.nan
  | JSNumber.int t => JSNumber.int (MonthFromTime (LocalTime h.localTZA t))

def getDate (h : Host) (d : JSDate) : JSNumber :=
  match d.tv with
  | JSNumber.nan => JSNumber.nan
  | JSNumber.int t => JSNumber.int (DateFromTime (LocalTime h.localTZA t))

/-- Relational operator `a < b` on Date objects: both convert to their time value. -/
def lt (a b : JSDate) : Bool := JSNumber.lt a.tv b.tv

end JSDate

/-! ## The sorting-hat `change` listener -/

/-- Input element of the house selection. -/
structure Input where
  value : String
  checked : Bool
  disabled : Bool
  deriving DecidableEq, Repr

/-- Listener body: `houseSelection.querySelectorAll("input").forEach(radio =>
radio.disabled = sortingHat.checked)`, on the inputs of the container in
document order. -/
def onSortingHatChange (sortingHatChecked : Bool) (inputs : List Input) : List Input :=
  inputs.map fun radio => { radio with disabled := sortingHatChecked }

/-! ## The form `submit` listener -/

/-- Values of the form fields the listener reads. -/
structure Form where
  dob : String
  password : String
  confirmPassword : String

/-- What a run of the listener leaves behind: whether `preventDefault` was
called on the event, and the alerts shown, oldest first. -/
structure Outcome where
  defaultPrevented : Bool
  alerts : List String
  deriving DecidableEq, Repr

def Outcome.start : Outcome := ⟨false, []⟩

def Outcome.preventDefault (o : Outcome) : Outcome := { o with defaultPrevented := true }

def Outcome.alert (o : Outcome) (msg : String) : Outcome := { o with alerts := o.alerts ++ [msg] }

def underageMessage : String :=
  "You are too young for Hogwarts, the lower age limit is 11 years."

def mismatchMessage : String := "Passwords do not match!"

/-- The constant `age` of the listener:
`today.getFullYear() - dob.getFullYear() -
 (today < new Date(today.getFullYear(), dob.getMonth(), dob.getDate()) ? 1 : 0)`. -/
def computeAge (h : Host) (dobValue : String) : JSNumber :=
  let dob := newDateOfString h dobValue
  let today := newDateNow h
  JSNumber.sub (JSNumber.sub (today.getFullYear h) (dob.getFullYear h))
    (if JSDate.lt today (newDateOfFields h (today.getFullYear h) (dob.getMonth h) (dob.getDate h))
     then JSNumber.int 1 else JSNumber.int 0)

/-- The `submit` listener. -/
def onSubmit (h : Host) (form : Form) : Outcome :=
  let e := Outcome.start
  let age := computeAge h form.dob
  if JSNumber.lt age (JSNumber.int 11) then
    (e.preventDefault).alert underageMessage
  else if form.password ≠ form.confirmPassword then
    (e.preventDefault).alert mismatchMessage
  else e

/-! ## The age of the specification -/

/-- Age in the words of the specification: the difference of the years, less
one when the birthday (month `m`, day `d`) has not yet occurred in the current
year, today being day `D` of month `M` of year `Y`. Months count from 1. -/
def specAge (Y M D y m d : Int) : Int :=
  Y - y - (if M < m ∨ (M = m ∧ D < d) then 1 else 0)

/-! ## Sample hosts -/

/-- Host on UTC whose clock shows 2024-06-01T12:00:00Z. -/
def hostUTC : Host := ⟨0, 1717243200000, fun _ => JSNumber.nan⟩

/-- Host five hours west of UTC whose clock shows 11:00 local time on
1 June 2024 (2024-06-01T16:00:00Z). -/
def hostWest : Host := ⟨-18000000, 1717257600000, fun _ => JSNumber.nan⟩

/-- Host nine hours east of UTC whose clock shows 08:30 local time on
1 March 2023 (2023-02-28T23:30:00Z). -/
def hostEast : Host := ⟨32400000, 1677627000000, fun _ => JSNumber.nan⟩

/-! ## Calendar facts -/

theorem leapOfYear_range (y : Int) : 0 ≤ leapOfYear y ∧ leapOfYear y ≤ 1 := by
  unfold leapOfYear; split_ifs <;> omega

theorem DaysInYear_eq (y : Int) : DaysInYear y = 365 + leapOfYear y := by
  unfold leapOfYear DaysInYear; split_ifs <;> omega

theorem DayFromYear_succ (y : Int) : DayFromYear (y + 1) = DayFromYear y + DaysInYear y := by
  unfold DayFromYear DaysInYear
  split_ifs <;> omega

theorem DayFromYear_add (y : Int) (k : Nat) :
    DayFromYear y + 365 * k ≤ DayFromYear (y + k) := by
  induction k with
  | zero => simp
  | succ n ih =>
    have h1 := DayFromYear_succ (y + n)
    have h2 := DaysInYear_eq (y + n)
    have h3 := leapOfYear_range (y + n)
    have e : y + ((n + 1 : Nat) : Int) = y + n + 1 := by push_cast; ring
    rw [e]
    push_cast
    omega

theorem DayFromYear_le {a b : Int} (h : a ≤ b) : DayFromYear a + 365 * (b - a) ≤ DayFromYear b := by
  obtain ⟨k, hk⟩ := Int.eq_ofNat_of_zero_le (show 0 ≤ b - a by omega)
  have := DayFromYear_add a k
  have e : a + (k : Int) = b := by omega
  rw [e] at this
  omega

theorem yearOfDay_bracket (d : Int) :
    DayFromYear (yearOfDay d) ≤ d ∧ d < DayFromYear (yearOfDay d + 1) := by
  unfold yearOfDay
  simp only
  split_ifs with h1 h2
  · rw [sub_add_cancel]
    refine ⟨?_, h1⟩
    unfold DayFromYear at *
    omega
  · refine ⟨h2, ?_⟩
    unfold DayFromYear at *
    omega
  · exact ⟨not_lt.mp h1, not_le.mp h2⟩

theorem yearOfDay_unique {d y : Int} (h1 : DayFromYear y ≤ d) (h2 : d < DayFromYear (y + 1)) :
    yearOfDay d = y := by
  have hb := yearOfDay_bracket d
  by_contra hne
  rcases lt_or_gt_of_ne hne with hlt | hgt
  · have := DayFromYear_le (show yearOfDay d + 1 ≤ y by omega)
    omega
  · have := DayFromYear_le (show y + 1 ≤ yearOfDay d by omega)
    omega

theorem yearOfDay_mono {d e : Int} (h : d ≤ e) : yearOfDay d ≤ yearOfDay e := by
  have hd := yearOfDay_bracket d
  have he := yearOfDay_bracket e
  by_contra hlt
  have := DayFromYear_le (show yearOfDay e + 1 ≤ yearOfDay d by omega)
  omega

/-- The year of a time value is the largest `y` with `TimeFromYear y ≤ t`. -/
theorem YearFromTime_largest (t : Int) :
    TimeFromYear (YearFromTime t) ≤ t ∧
      ∀ y, TimeFromYear y ≤ t → y ≤ YearFromTime t := by
  have hb := yearOfDay_bracket (Day t)
  unfold TimeFromYear YearFromTime
  unfold Day msPerDay at *
  refine ⟨by omega, fun y hy => ?_⟩
  by_contra hlt
  have := DayFromYear_le (show yearOfDay (t / 86400000) + 1 ≤ y by omega)
  omega

/-! ### Days of a year -/

theorem monthInYear_cases_aux (l d m : Int) (hm : monthInYear l d = m) :
    (m = 0 ∧ d < 31) ∨ (m = 1 ∧ 31 ≤ d ∧ d < 59 + l) ∨
    (m = 2 ∧ 59 + l ≤ d ∧ d < 90 + l) ∨
    (m = 3 ∧ 90 + l ≤ d ∧ d < 120 + l) ∨
    (m = 4 ∧ 120 + l ≤ d ∧ d < 151 + l) ∨
    (m = 5 ∧ 151 + l ≤ d ∧ d < 181 + l) ∨
    (m = 6 ∧ 181 + l ≤ d ∧ d < 212 + l) ∨
    (m = 7 ∧ 212 + l ≤ d ∧ d < 243 + l) ∨
    (m = 8 ∧ 243 + l ≤ d ∧ d < 273 + l) ∨
    (m = 9 ∧ 273 + l ≤ d ∧ d < 304 + l) ∨
    (m = 10 ∧ 304 + l ≤ d ∧ d < 334 + l) ∨
    (m = 11 ∧ 334 + l ≤ d) := by
  unfold monthInYear at hm
  by_cases h0 : d < 31
  · rw [if_pos h0] at hm
    exact Or.inl ⟨hm.symm, by omega⟩
  rw [if_neg h0] at hm
  by_cases h1 : d < 59 + l
  · rw [if_pos h1] at hm
    exact Or.inr (Or.inl ⟨hm.symm, by omega, by omega⟩)
  rw [if_neg h1] at hm
  by_cases h2 : d < 90 + l
  · rw [if_pos h2] at hm
    exact Or.inr (Or.inr (Or.inl ⟨hm.symm, by omega, by omega⟩))
  rw [if_neg h2] at hm
  by_cases h3 : d < 120 + l
  · rw [if_pos h3] at hm
    exact Or.inr (Or.inr (Or.inr (Or.inl ⟨hm.symm, by omega, by omega⟩)))
  rw [if_neg h3] at hm
  by_cases h4 : d < 151 + l
  · rw [if_pos h4] at hm
    exact Or.inr (Or.inr (Or.inr (Or.inr (Or.inl ⟨hm.symm, by omega, by omega⟩))))
  rw [if_neg h4] at hm
  by_cases h5 : d < 181 + l
  · rw [if_pos h5] at hm
    exact Or.inr (Or.inr (Or.inr (Or.inr (Or.inr (Or.inl ⟨hm.symm, by omega, by omega⟩)))))
  rw [if_neg h5] at hm
  by_cases h6 : d < 212 + l
  · rw [if_pos h6] at hm
    exact Or.inr (Or.inr (Or.inr (Or.inr (Or.inr (Or.inr (Or.inl ⟨hm.symm, by omega, by omega⟩))))))
  rw [if_neg h6] at hm
  by_cases h7 : d < 243 + l
  · rw [if_pos h7] at hm
    exact Or.inr (Or.inr (Or.inr (Or.inr (Or.inr (Or.inr (Or.inr (Or.inl ⟨hm.symm, by omega, by omega⟩)))))))
  rw [if_neg h7] at hm
  by_cases h8 : d < 273 + l
  · rw [if_pos h8] at hm
    exact Or.inr (Or.inr (Or.inr (Or.inr (Or.inr (Or.inr (Or.inr (Or.inr (Or.inl ⟨hm.symm, by omega, by omega⟩))))))))
  rw [if_neg h8] at hm
  by_cases h9 : d < 304 + l
  · rw [if_pos h9] at hm
    exact Or.inr (Or.inr (Or.inr (Or.inr (Or.inr (Or.inr (Or.inr (Or.inr (Or.inr (Or.inl ⟨hm.symm, by omega, by omega⟩)))))))))
  rw [if_neg h9] at hm
  by_cases h10 : d < 334 + l
  · rw [if_pos h10] at hm
    exact Or.inr (Or.inr (Or.inr (Or.inr (Or.inr (Or.inr (Or.inr (Or.inr (Or.inr (Or.inr (Or.inl ⟨hm.symm, by omega, by omega⟩))))))))))
  rw [if_neg h10] at hm
  exact Or.inr (Or.inr (Or.inr (Or.inr (Or.inr (Or.inr (Or.inr (Or.inr (Or.inr (Or.inr (Or.inr (⟨hm.symm, by omega⟩)))))))))))

theorem monthInYear_cases (l d : Int) :
    (monthInYear l d = 0 ∧ d < 31) ∨ (monthInYear l d = 1 ∧ 31 ≤ d ∧ d < 59 + l) ∨
    (monthInYear l d = 2 ∧ 59 + l ≤ d ∧ d < 90 + l) ∨
    (monthInYear l d = 3 ∧ 90 + l ≤ d ∧ d < 120 + l) ∨
    (monthInYear l d = 4 ∧ 120 + l ≤ d ∧ d < 151 + l) ∨
    (monthInYear l d = 5 ∧ 151 + l ≤ d ∧ d < 181 + l) ∨
    (monthInYear l d = 6 ∧ 181 + l ≤ d ∧ d < 212 + l) ∨
    (monthInYear l d = 7 ∧ 212 + l ≤ d ∧ d < 243 + l) ∨
    (monthInYear l d = 8 ∧ 243 + l ≤ d ∧ d < 273 + l) ∨
    (monthInYear l d = 9 ∧ 273 + l ≤ d ∧ d < 304 + l) ∨
    (monthInYear l d = 10 ∧ 304 + l ≤ d ∧ d < 334 + l) ∨
    (monthInYear l d = 11 ∧ 334 + l ≤ d) :=
  monthInYear_cases_aux l d _ rfl

theorem monthInYear_spec (l d : Int) (hd0 : 0 ≤ d) (hd1 : d < 365 + l) :
    0 ≤ monthInYear l d ∧ monthInYear l d ≤ 11 ∧
    1 ≤ dateInYear l d ∧ dateInYear l d ≤ monthDays l (monthInYear l d + 1) ∧
    d = monthStart l (monthInYear l d) + dateInYear l d - 1 := by
  rcases monthInYear_cases l d with h | h | h | h | h | h | h | h | h | h | h | h <;>
    obtain ⟨hm, hr⟩ := h <;>
    simp only [dateInYear, monthDays, monthStart, hm] <;> norm_num <;> omega

theorem range_cases (m : Int) (hm0 : 0 ≤ m) (hm1 : m ≤ 11) :
    m = 0 ∨ m = 1 ∨ m = 2 ∨ m = 3 ∨ m = 4 ∨ m = 5 ∨ m = 6 ∨ m = 7 ∨ m = 8 ∨ m = 9 ∨
      m = 10 ∨ m = 11 := by
  omega

theorem monthStart_cases (l m : Int) (hm0 : 0 ≤ m) (hm1 : m ≤ 11) :
    (m = 0 ∧ monthStart l m = 0 ∧ monthDays l (m + 1) = 31) ∨
    (m = 1 ∧ monthStart l m = 31 ∧ monthDays l (m + 1) = 28 + l) ∨
    (m = 2 ∧ monthStart l m = 59 + l ∧ monthDays l (m + 1) = 31) ∨
    (m = 3 ∧ monthStart l m = 90 + l ∧ monthDays l (m + 1) = 30) ∨
    (m = 4 ∧ monthStart l m = 120 + l ∧ monthDays l (m + 1) = 31) ∨
    (m = 5 ∧ monthStart l m = 151 + l ∧ monthDays l (m + 1) = 30) ∨
    (m = 6 ∧ monthStart l m = 181 + l ∧ monthDays l (m + 1) = 31) ∨
    (m = 7 ∧ monthStart l m = 212 + l ∧ monthDays l (m + 1) = 31) ∨
    (m = 8 ∧ monthStart l m = 243 + l ∧ monthDays l (m + 1) = 30) ∨
    (m = 9 ∧ monthStart l m = 273 + l ∧ monthDays l (m + 1) = 31) ∨
    (m = 10 ∧ monthStart l m = 304 + l ∧ monthDays l (m + 1) = 30) ∨
    (m = 11 ∧ monthStart l m = 334 + l ∧ monthDays l (m + 1) = 31) := by
  rcases range_cases m hm0 hm1 with h | h | h | h | h | h | h | h | h | h | h | h
  · subst h; exact Or.inl ⟨rfl, by simp [monthStart], by simp [monthDays]⟩
  · subst h; exact Or.inr (Or.inl ⟨rfl, by simp [monthStart], by simp [monthDays]⟩)
  · subst h; exact Or.inr (Or.inr (Or.inl ⟨rfl, by simp [monthStart], by simp [monthDays]⟩))
  · subst h; exact Or.inr (Or.inr (Or.inr (Or.inl ⟨rfl, by simp [monthStart], by simp [monthDays]⟩)))
  · subst h; exact Or.inr (Or.inr (Or.inr (Or.inr (Or.inl ⟨rfl, by simp [monthStart], by simp [monthDays]⟩))))
  · subst h; exact Or.inr (Or.inr (Or.inr (Or.inr (Or.inr (Or.inl ⟨rfl, by simp [monthStart], by simp [monthDays]⟩)))))
  · subst h; exact Or.inr (Or.inr (Or.inr (Or.inr (Or.inr (Or.inr (Or.inl ⟨rfl, by simp [monthStart], by simp [monthDays]⟩))))))
  · subst h; exact Or.inr (Or.inr (Or.inr (Or.inr (Or.inr (Or.inr (Or.inr (Or.inl ⟨rfl, by simp [monthStart], by simp [monthDays]⟩)))))))
  · subst h; exact Or.inr (Or.inr (Or.inr (Or.inr (Or.inr (Or.inr (Or.inr (Or.inr (Or.inl ⟨rfl, by simp [monthStart], by simp [monthDays]⟩))))))))
  · subst h; exact Or.inr (Or.inr (Or.inr (Or.inr (Or.inr (Or.inr (Or.inr (Or.inr (Or.inr (Or.inl ⟨rfl, by simp [monthStart], by simp [monthDays]⟩)))))))))
  · subst h; exact Or.inr (Or.inr (Or.inr (Or.inr (Or.inr (Or.inr (Or.inr (Or.inr (Or.inr (Or.inr (Or.inl ⟨rfl, by simp [monthStart], by simp [monthDays]⟩))))))))))
  · subst h; exact Or.inr (Or.inr (Or.inr (Or.inr (Or.inr (Or.inr (Or.inr (Or.inr (Or.inr (Or.inr (Or.inr (⟨rfl, by simp [monthStart], by simp [monthDays]⟩)))))))))))

/-- Within a year, an earlier month starts and ends before a later one. -/
theorem monthStart_lex (l m1 d1 m2 d2 : Int) (hl0 : 0 ≤ l) (hl1 : l ≤ 1) (hm1 : 0 ≤ m1) (hm12 : m1 < m2) (hm2 : m2 ≤ 11)
    (hd1 : d1 ≤ monthDays l (m1 + 1)) (hd2 : 1 ≤ d2) :
    monthStart l m1 + d1 < monthStart l m2 + d2 := by
  rcases monthStart_cases l m1 hm1 (by omega) with h | h | h | h | h | h | h | h | h | h | h | h <;>
  rcases monthStart_cases l m2 (by omega) hm2 with k | k | k | k | k | k | k | k | k | k | k | k <;>
  omega

theorem monthInYear_of_start (l m dt : Int) (hl0 : 0 ≤ l) (hl1 : l ≤ 1) (hm0 : 0 ≤ m) (hm1 : m ≤ 11)
    (hd0 : 1 ≤ dt) (hd1 : dt ≤ monthDays l (m + 1)) :
    monthInYear l (monthStart l m + dt - 1) = m ∧ dateInYear l (monthStart l m + dt - 1) = dt ∧
    0 ≤ monthStart l m + dt - 1 ∧ monthStart l m + dt - 1 < 365 + l := by
  have hr : 0 ≤ monthStart l m + dt - 1 ∧ monthStart l m + dt - 1 < 365 + l := by
    rcases monthStart_cases l m hm0 hm1 with h | h | h | h | h | h | h | h | h | h | h | h <;> omega
  obtain ⟨a0, a1, b0, b1, e⟩ := monthInYear_spec l (monthStart l m + dt - 1) hr.1 hr.2
  have hmm : monthInYear l (monthStart l m + dt - 1) = m := by
    by_contra hne
    rcases lt_or_gt_of_ne hne with hlt | hgt
    · have := monthStart_lex l _ _ m dt hl0 hl1 a0 hlt hm1 b1 hd0
      omega
    · have := monthStart_lex l m dt _ (dateInYear l (monthStart l m + dt - 1)) hl0 hl1 hm0 hgt a1 hd1 b0
      omega
  refine ⟨hmm, ?_, hr⟩
  rw [hmm] at e
  omega

/-! ### The date-only form -/

theorem digitValue_range (c : Char) (v : Int) (h : digitValue c = some v) : 0 ≤ v ∧ v ≤ 9 := by
  unfold digitValue at h
  split_ifs at h with hc
  simp only [Char.isDigit, Bool.and_eq_true, decide_eq_true_eq] at hc
  obtain ⟨h1, h2⟩ := hc
  have e1 : c.toNat ≤ 57 := by
    have := UInt32.le_def.mp h2
    simpa [Char.toNat] using this
  injection h with h
  omega

theorem dateOnlyFields_range (s : String) (y m d : Int) (h : dateOnlyFields s = some (y, m, d)) :
    0 ≤ y ∧ y ≤ 9999 ∧ 0 ≤ m ∧ m ≤ 99 ∧ 0 ≤ d ∧ d ≤ 99 := by
  unfold dateOnlyFields at h
  split at h
  · split_ifs at h
    split at h
    · rename_i a b c d' e f g k ha hb hc hd he hf hg hk
      have ra := digitValue_range _ _ ha
      have rb := digitValue_range _ _ hb
      have rc := digitValue_range _ _ hc
      have rd := digitValue_range _ _ hd
      have re := digitValue_range _ _ he
      have rf := digitValue_range _ _ hf
      have rg := digitValue_range _ _ hg
      have rk := digitValue_range _ _ hk
      simp only [Option.some.injEq, Prod.mk.injEq] at h
      omega
    · simp at h
  · simp at h

/-! ### Fields of a time value -/

theorem MakeDay_eq (y m d : Int) (hm0 : 0 ≤ m) (hm1 : m ≤ 11) :
    MakeDay y m d = DayFromYear y + monthStart (leapOfYear y) m + d - 1 := by
  unfold MakeDay
  have e1 : m / 12 = 0 := by omega
  have e2 : m % 12 = m := by omega
  simp only [e1, e2, add_zero]

theorem DayWithinYear_range (t : Int) :
    0 ≤ DayWithinYear t ∧ DayWithinYear t < 365 + InLeapYear t := by
  have hb := yearOfDay_bracket (Day t)
  have hs := DayFromYear_succ (yearOfDay (Day t))
  have hy := DaysInYear_eq (yearOfDay (Day t))
  unfold DayWithinYear InLeapYear YearFromTime
  omega

/-- Every time value falls on a calendar date, and `MakeDay` of its fields is its day. -/
theorem fields_of_time (t : Int) :
    ValidDate (YearFromTime t) (MonthFromTime t + 1) (DateFromTime t) ∧
      Day t = MakeDay (YearFromTime t) (MonthFromTime t) (DateFromTime t) := by
  obtain ⟨r0, r1⟩ := DayWithinYear_range t
  obtain ⟨a0, a1, b0, b1, e⟩ := monthInYear_spec (InLeapYear t) (DayWithinYear t) r0 r1
  refine ⟨⟨?_, ?_, b0, b1⟩, ?_⟩
  · show 1 ≤ monthInYear _ _ + 1; omega
  · show monthInYear _ _ + 1 ≤ 12; omega
  · have hm : MakeDay (YearFromTime t) (MonthFromTime t) (DateFromTime t) = _ :=
      MakeDay_eq _ _ _ a0 a1
    rw [hm]
    have hw : DayWithinYear t = Day t - DayFromYear (YearFromTime t) := rfl
    unfold MonthFromTime DateFromTime
    unfold InLeapYear at e ⊢
    omega

/-- The fields of a time value on day `MakeDay y m d` are `y`, `m`, `d`. -/
theorem fields_of_MakeDay (y m d t : Int) (hv : ValidDate y (m + 1) d)
    (ht : Day t = MakeDay y m d) :
    YearFromTime t = y ∧ MonthFromTime t = m ∧ DateFromTime t = d := by
  obtain ⟨hm0, hm1, hd0, hd1⟩ := hv
  obtain ⟨l0, l1⟩ := leapOfYear_range y
  rw [MakeDay_eq y m d (by omega) (by omega)] at ht
  obtain ⟨e1, e2, r0, r1⟩ :=
    monthInYear_of_start (leapOfYear y) m d l0 l1 (by omega) (by omega) hd0 hd1
  have hy : YearFromTime t = y := by
    unfold YearFromTime
    apply yearOfDay_unique
    · omega
    · rw [DayFromYear_succ, DaysInYear_eq]; omega
  have hw : DayWithinYear t = monthStart (leapOfYear y) m + d - 1 := by
    unfold DayWithinYear; rw [hy]; omega
  refine ⟨hy, ?_, ?_⟩
  · unfold MonthFromTime InLeapYear; rw [hy, hw]; exact e1
  · unfold DateFromTime InLeapYear; rw [hy, hw]; exact e2

/-- The time value that `MakeDay` is specified to find exists: the start of the
first day of month `mn` of year `ym`. -/
theorem MakeDay_finds (ym mn : Int) (hm0 : 0 ≤ mn) (hm1 : mn ≤ 11) :
    YearFromTime (MakeDate (MakeDay ym mn 1) 0) = ym ∧
      MonthFromTime (MakeDate (MakeDay ym mn 1) 0) = mn ∧
      DateFromTime (MakeDate (MakeDay ym mn 1) 0) = 1 := by
  apply fields_of_MakeDay
  · refine ⟨by omega, by omega, le_refl _, ?_⟩
    unfold DaysInMonth
    rcases monthStart_cases (leapOfYear ym) mn hm0 hm1 with
      h | h | h | h | h | h | h | h | h | h | h | h <;>
    have := leapOfYear_range ym <;> omega
  · unfold MakeDate Day msPerDay; omega

theorem Day_mono {s t : Int} (h : s ≤ t) : Day s ≤ Day t := by
  unfold Day msPerDay; omega

/-! ## The age computed by the submit listener -/

theorem DayFromYear_bounds (y : Int) (h0 : 0 ≤ y) (h1 : y ≤ 9999) :
    -719528 ≤ DayFromYear y ∧ DayFromYear y ≤ 2932532 := by
  unfold DayFromYear; omega

theorem monthStart_range (l m : Int) (hl0 : 0 ≤ l) (hl1 : l ≤ 1) (hm0 : 0 ≤ m) (hm1 : m ≤ 11) :
    0 ≤ monthStart l m ∧ monthStart l m ≤ 335 := by
  rcases monthStart_cases l m hm0 hm1 with h | h | h | h | h | h | h | h | h | h | h | h <;> omega

theorem monthDays_range (l m : Int) (hl0 : 0 ≤ l) (hl1 : l ≤ 1) :
    28 ≤ monthDays l m ∧ monthDays l m ≤ 31 := by
  have key : ∀ v, monthDays l m = v → 28 ≤ v ∧ v ≤ 31 := by
    intro v hv
    unfold monthDays at hv
    split_ifs at hv <;> omega
  exact key _ rfl

/-- A calendar date written `YYYY-MM-DD` parses to the start of that day in UTC. -/
theorem newDateOfString_date (h : Host) (s : String) (y m d : Int)
    (hf : dateOnlyFields s = some (y, m, d)) (hv : ValidDate y m d) :
    newDateOfString h s = ⟨JSNumber.int (MakeDay y (m - 1) d * msPerDay)⟩ := by
  obtain ⟨y0, y1, -, -, -, -⟩ := dateOnlyFields_range s y m d hf
  obtain ⟨hm0, hm1, hd0, hd1⟩ := hv
  obtain ⟨l0, l1⟩ := leapOfYear_range y
  have hb := DayFromYear_bounds y y0 y1
  have hs := monthStart_range (leapOfYear y) (m - 1) l0 l1 (by omega) (by omega)
  have hd := monthDays_range (leapOfYear y) m l0 l1
  unfold DaysInMonth at hd1
  have hmk := MakeDay_eq y (m - 1) d (by omega) (by omega)
  have hclip : ¬ maxTime < |MakeDay y (m - 1) d * msPerDay| := by
    rw [not_lt, abs_le]
    unfold maxTime msPerDay
    constructor <;> omega
  unfold newDateOfString DateParse
  simp only [hf, ValidDate, hm0, hm1, hd0, DaysInMonth, hd1, and_self, if_true, clipNumber,
    TimeClip, MakeDate, add_zero, hclip, if_false]

theorem computeAge_of_tv (h : Host) (s : String) (b : Int)
    (hb : newDateOfString h s = ⟨JSNumber.int b⟩) :
    computeAge h s = JSNumber.int
      (YearFromTime (LocalTime h.localTZA h.now) - YearFromTime (LocalTime h.localTZA b) -
        if JSNumber.lt (JSNumber.int h.now)
            (TimeClip (UTC h.localTZA (MakeDate
              (MakeDay (MakeFullYear (YearFromTime (LocalTime h.localTZA h.now)))
                (MonthFromTime (LocalTime h.localTZA b))
                (DateFromTime (LocalTime h.localTZA b))) 0))) = true
        then 1 else 0) := by
  unfold computeAge
  simp only [hb, newDateNow, JSDate.getFullYear, JSDate.getMonth, JSDate.getDate,
    newDateOfFields, JSDate.lt, JSNumber.sub]
  split_ifs <;> rfl

/-- The comparison `today < birthday` of the listener, read on local day numbers. -/
theorem lt_birthday (tza now B : Int) (hnow : -maxTime ≤ now)
    (hB : B * msPerDay - tza ≤ maxTime) :
    JSNumber.lt (JSNumber.int now) (TimeClip (UTC tza (MakeDate B 0))) =
      decide (Day (LocalTime tza now) < B) := by
  unfold TimeClip UTC MakeDate LocalTime Day
  rw [add_zero]
  by_cases hc : maxTime < |B * msPerDay - tza|
  · rw [if_pos hc]
    have : B * msPerDay - tza < -maxTime := by
      rcases lt_abs.mp hc with h1 | h1 <;> omega
    have hn : ¬ (now + tza) / msPerDay < B := by
      unfold msPerDay at *; omega
    simp [JSNumber.lt, hn]
  · rw [if_neg hc]
    have e : (now < B * msPerDay - tza) ↔ ((now + tza) / msPerDay < B) := by
      unfold msPerDay; constructor <;> intro _ <;> omega
    simp [JSNumber.lt, e]

theorem monthDays_leap (l k m : Int) (hl1 : l ≤ 1) (hk0 : 0 ≤ k) :
    monthDays l m ≤ monthDays k m + 1 := by
  unfold monthDays; split_ifs <;> omega

/-- Dates in calendar order have their days in order. -/
theorem MakeDay_lex (y1 m1 d1 y2 m2 d2 : Int) (hv1 : ValidDate y1 m1 d1) (hv2 : ValidDate y2 m2 d2)
    (hle : y1 < y2 ∨ (y1 = y2 ∧ (m1 < m2 ∨ (m1 = m2 ∧ d1 ≤ d2)))) :
    MakeDay y1 (m1 - 1) d1 ≤ MakeDay y2 (m2 - 1) d2 := by
  obtain ⟨a0, a1, a2, a3⟩ := hv1
  obtain ⟨b0, b1, b2, b3⟩ := hv2
  unfold DaysInMonth at a3 b3
  obtain ⟨l0, l1⟩ := leapOfYear_range y1
  obtain ⟨k0, k1⟩ := leapOfYear_range y2
  rw [MakeDay_eq _ _ _ (by omega) (by omega), MakeDay_eq _ _ _ (by omega) (by omega)]
  have r1 := monthInYear_of_start (leapOfYear y1) (m1 - 1) d1 l0 l1 (by omega) (by omega) a2
    (by rw [sub_add_cancel]; exact a3)
  have r2 := monthInYear_of_start (leapOfYear y2) (m2 - 1) d2 k0 k1 (by omega) (by omega) b2
    (by rw [sub_add_cancel]; exact b3)
  rcases hle with hy | ⟨hy, hm | ⟨hm, hd⟩⟩
  · have h1 := DayFromYear_le (show y1 + 1 ≤ y2 by omega)
    have h2 := DayFromYear_succ y1
    have h3 := DaysInYear_eq y1
    omega
  · subst hy
    have := monthStart_lex (leapOfYear y1) (m1 - 1) d1 (m2 - 1) d2 l0 l1 (by omega) (by omega)
      (by omega) (by rw [sub_add_cancel]; exact a3) b2
    omega
  · subst hy; subst hm; omega

/-- Two days of one year keep their order when their month and day are moved to
another year (29 February moving to 1 March when that year is not a leap year). -/
theorem birthday_mono (y Y m1 d1 m2 d2 : Int)
    (hv1 : ValidDate y (m1 + 1) d1) (hv2 : ValidDate y (m2 + 1) d2)
    (hle : MakeDay y m1 d1 ≤ MakeDay y m2 d2) :
    MakeDay Y m1 d1 ≤ MakeDay Y m2 d2 := by
  obtain ⟨a0, a1, a2, a3⟩ := hv1
  obtain ⟨b0, b1, b2, b3⟩ := hv2
  unfold DaysInMonth at a3 b3
  obtain ⟨l0, l1⟩ := leapOfYear_range y
  obtain ⟨k0, k1⟩ := leapOfYear_range Y
  rw [MakeDay_eq _ _ _ (by omega) (by omega), MakeDay_eq _ _ _ (by omega) (by omega)] at hle ⊢
  rcases lt_trichotomy m1 m2 with hlt | heq | hgt
  · have h1 := monthDays_leap (leapOfYear y) (leapOfYear Y) (m1 + 1) l1 k0
    have := monthStart_lex (leapOfYear Y) m1 (d1 - 1) m2 d2 k0 k1 (by omega) hlt (by omega)
      (by omega) b2
    omega
  · subst heq; omega
  · have := monthStart_lex (leapOfYear y) m2 d2 m1 d1 l0 l1 (by omega) hgt (by omega) b3 a2
    omega

theorem lt_clip_mono (tza now B1 B2 : Int) (hB : B1 ≤ B2) (hmax : B2 * msPerDay - tza ≤ maxTime)
    (h1 : JSNumber.lt (JSNumber.int now) (TimeClip (UTC tza (MakeDate B1 0))) = true) :
    JSNumber.lt (JSNumber.int now) (TimeClip (UTC tza (MakeDate B2 0))) = true := by
  unfold TimeClip UTC MakeDate at *
  rw [add_zero] at *
  by_cases hc : maxTime < |B1 * msPerDay - tza|
  · rw [if_pos hc] at h1; simp [JSNumber.lt] at h1
  · rw [if_neg hc] at h1
    simp only [JSNumber.lt, decide_eq_true_eq] at h1
    have hc2 : ¬ maxTime < |B2 * msPerDay - tza| := by
      rw [not_lt, abs_le] at hc ⊢
      unfold msPerDay at *
      constructor <;> omega
    rw [if_neg hc2]
    simp only [JSNumber.lt, decide_eq_true_eq]
    unfold msPerDay at *
    omega

theorem DayFromYear_last : DayFromYear 275760 = 99999744 := by
  unfold DayFromYear; omega

theorem MakeFullYear_le (y : Int) (hy : y ≤ 275759) : MakeFullYear y ≤ 275759 := by
  unfold MakeFullYear; split_ifs <;> omega

/-- A birthday placed in a year up to 275759 is a time value in range. -/
theorem birthday_in_range (tza Y m d : Int) (hY : Y ≤ 275759) (hm0 : 0 ≤ m) (hm1 : m ≤ 11)
    (hd : d ≤ 31) (htz : -msPerDay ≤ tza) :
    MakeDay Y m d * msPerDay - tza ≤ maxTime := by
  obtain ⟨k0, k1⟩ := leapOfYear_range Y
  have h1 := DayFromYear_le (show Y ≤ 275760 by omega)
  have h2 := DayFromYear_last
  have h3 := monthStart_range (leapOfYear Y) m k0 k1 hm0 hm1
  rw [MakeDay_eq _ _ _ hm0 hm1]
  unfold maxTime msPerDay at *
  omega

theorem dateOfFields_le_31 (y m d : Int) (hv : ValidDate y m d) : d ≤ 31 := by
  obtain ⟨-, -, -, h⟩ := hv
  obtain ⟨l0, l1⟩ := leapOfYear_range y
  have := monthDays_range (leapOfYear y) m l0 l1
  unfold DaysInMonth at h
  omega

theorem Day_localTime_date (tza P : Int) (h0 : -msPerDay ≤ tza) (h1 : tza < msPerDay) :
    (0 ≤ tza ∧ Day (LocalTime tza (P * msPerDay)) = P) ∨
      (tza < 0 ∧ Day (LocalTime tza (P * msPerDay)) = P - 1) := by
  unfold Day LocalTime msPerDay at *
  omega

/-- Fields of the day before a calendar date: the same year and an earlier day
of it, or 31 December of the year before when the date is 1 January. -/
theorem fields_of_day_before (y m d t : Int) (hv : ValidDate y (m + 1) d)
    (ht : Day t = MakeDay y m d - 1) :
    (YearFromTime t = y ∧ ValidDate y (MonthFromTime t + 1) (DateFromTime t) ∧
        MakeDay y (MonthFromTime t) (DateFromTime t) ≤ MakeDay y m d) ∨
      (YearFromTime t = y - 1 ∧ MonthFromTime t = 11 ∧ DateFromTime t = 31 ∧ m = 0 ∧ d = 1) := by
  obtain ⟨hm0, hm1, hd0, hd1⟩ := hv
  unfold DaysInMonth at hd1
  obtain ⟨l0, l1⟩ := leapOfYear_range y
  obtain ⟨k0, k1⟩ := leapOfYear_range (y - 1)
  obtain ⟨v, g⟩ := fields_of_time t
  have hmk := MakeDay_eq y m d (by omega) (by omega)
  obtain ⟨-, -, r0, r1⟩ :=
    monthInYear_of_start (leapOfYear y) m d l0 l1 (by omega) (by omega) hd0 hd1
  by_cases hw : 1 ≤ monthStart (leapOfYear y) m + d - 1
  · left
    have hy : YearFromTime t = y := by
      unfold YearFromTime
      apply yearOfDay_unique
      · omega
      · rw [DayFromYear_succ, DaysInYear_eq]; omega
    rw [hy] at v g
    exact ⟨hy, v, by omega⟩
  · right
    have hs := DayFromYear_succ (y - 1)
    rw [sub_add_cancel, DaysInYear_eq] at hs
    have hy : YearFromTime t = y - 1 := by
      unfold YearFromTime
      apply yearOfDay_unique
      · omega
      · rw [sub_add_cancel]; omega
    rw [hy] at v g
    obtain ⟨c0, c1, c2, c3⟩ := v
    unfold DaysInMonth at c3
    rw [MakeDay_eq _ _ _ (by omega) (by omega)] at g
    have hm11 : MonthFromTime t = 11 ∧ DateFromTime t = 31 := by
      rcases monthStart_cases (leapOfYear (y - 1)) (MonthFromTime t) (by omega) (by omega) with
        h | h | h | h | h | h | h | h | h | h | h | h <;> omega
    have hm : m = 0 ∧ d = 1 := by
      rcases monthStart_cases (leapOfYear y) m (by omega) (by omega) with
        h | h | h | h | h | h | h | h | h | h | h | h <;> omega
    exact ⟨hy, hm11.1, hm11.2, hm.1, hm.2⟩

theorem MakeFullYear_of_le (y : Int) (hy : 100 ≤ y) : MakeFullYear y = y := by
  unfold MakeFullYear; rw [if_neg]; omega

/-- At or east of UTC the fields read from the parsed date of birth are the ones written. -/
theorem dob_fields_east_of_utc (h : Host) (s : String) (y m d : Int)
    (hf : dateOnlyFields s = some (y, m, d)) (hv : ValidDate y m d)
    (htz0 : 0 ≤ h.localTZA) (htz1 : h.localTZA < msPerDay) :
    (newDateOfString h s).getFullYear h = JSNumber.int y ∧
      (newDateOfString h s).getMonth h = JSNumber.int (m - 1) ∧
      (newDateOfString h s).getDate h = JSNumber.int d := by
  rw [newDateOfString_date h s y m d hf hv]
  have hv1 : ValidDate y (m - 1 + 1) d := by rw [sub_add_cancel]; exact hv
  have hP : Day (LocalTime h.localTZA (MakeDay y (m - 1) d * msPerDay)) = MakeDay y (m - 1) d := by
    rcases Day_localTime_date h.localTZA (MakeDay y (m - 1) d) (by unfold msPerDay; omega) htz1
      with ⟨-, hP⟩ | ⟨hneg, -⟩
    · exact hP
    · omega
  obtain ⟨e1, e2, e3⟩ := fields_of_MakeDay y (m - 1) d _ hv1 hP
  simp only [JSDate.getFullYear, JSDate.getMonth, JSDate.getDate, e1, e2, e3, and_self]

/-- At or east of UTC, with the clock in a year from 100 to 275759, the listener
computes the age of the specification. -/
theorem computeAge_east_of_utc (h : Host) (s : String) (y m d : Int)
    (hf : dateOnlyFields s = some (y, m, d)) (hv : ValidDate y m d)
    (htz0 : 0 ≤ h.localTZA) (htz1 : h.localTZA < msPerDay)
    (hY0 : 100 ≤ YearFromTime (LocalTime h.localTZA h.now))
    (hY1 : YearFromTime (LocalTime h.localTZA h.now) ≤ 275759) :
    computeAge h s = JSNumber.int
      (specAge (YearFromTime (LocalTime h.localTZA h.now))
        (MonthFromTime (LocalTime h.localTZA h.now) + 1)
        (DateFromTime (LocalTime h.localTZA h.now)) y m d) := by
  rw [computeAge_of_tv h s _ (newDateOfString_date h s y m d hf hv)]
  have hv1 : ValidDate y (m - 1 + 1) d := by rw [sub_add_cancel]; exact hv
  have hP : Day (LocalTime h.localTZA (MakeDay y (m - 1) d * msPerDay)) = MakeDay y (m - 1) d := by
    rcases Day_localTime_date h.localTZA (MakeDay y (m - 1) d) (by unfold msPerDay; omega) htz1
      with ⟨-, hP⟩ | ⟨hneg, -⟩
    · exact hP
    · omega
  obtain ⟨e1, e2, e3⟩ := fields_of_MakeDay y (m - 1) d _ hv1 hP
  rw [e1, e2, e3, MakeFullYear_of_le _ hY0]
  obtain ⟨vN, gN⟩ := fields_of_time (LocalTime h.localTZA h.now)
  set Y := YearFromTime (LocalTime h.localTZA h.now) with hYdef
  set M := MonthFromTime (LocalTime h.localTZA h.now) with hMdef
  set D := DateFromTime (LocalTime h.localTZA h.now) with hDdef
  obtain ⟨a0, a1, a2, a3⟩ := hv
  obtain ⟨b0, b1, b2, b3⟩ := vN
  unfold DaysInMonth at a3 b3
  obtain ⟨l0, l1⟩ := leapOfYear_range y
  obtain ⟨k0, k1⟩ := leapOfYear_range Y
  have hlow := DayFromYear_le (show (100 : Int) ≤ Y from hY0)
  have h100v : DayFromYear 100 = -683003 := by unfold DayFromYear; omega
  have hNeq := MakeDay_eq Y M D (by omega) (by omega)
  have hBeq := MakeDay_eq Y (m - 1) d (by omega) (by omega)
  have hs := monthStart_range (leapOfYear Y) M k0 k1 (by omega) (by omega)
  have hnow : -maxTime ≤ h.now := by
    unfold Day LocalTime at gN
    unfold maxTime
    unfold msPerDay at *
    omega
  have hB : MakeDay Y (m - 1) d * msPerDay - h.localTZA ≤ maxTime :=
    birthday_in_range _ _ _ _ hY1 (by omega) (by omega)
      (by have := monthDays_range (leapOfYear y) m l0 l1; omega) (by unfold msPerDay; omega)
  rw [lt_birthday _ _ _ hnow hB, gN]
  have hleap := monthDays_leap (leapOfYear y) (leapOfYear Y) m l1 k0
  have hiff : MakeDay Y M D < MakeDay Y (m - 1) d ↔ (M + 1 < m ∨ (M + 1 = m ∧ D < d)) := by
    rw [hNeq, hBeq]
    rcases lt_trichotomy M (m - 1) with hlt | heq | hgt
    · have := monthStart_lex (leapOfYear Y) M D (m - 1) d k0 k1 (by omega) hlt (by omega) b3 a2
      constructor <;> intro _ <;> omega
    · rw [heq]
      constructor <;> intro _ <;> omega
    · have := monthStart_lex (leapOfYear Y) (m - 1) (d - 1) M D k0 k1 (by omega) hgt (by omega)
        (by rw [sub_add_cancel]; omega) b2
      constructor <;> intro _ <;> omega
  unfold specAge
  simp only [decide_eq_true_eq, hiff]

/-! ## The listeners: control flow -/

theorem lt_int_eq_false (a b : Int) :
    JSNumber.lt (JSNumber.int a) (JSNumber.int b) = false ↔ b ≤ a := by
  simp [JSNumber.lt]

theorem onSubmit_of_age (h : Host) (form : Form)
    (hage : JSNumber.lt (computeAge h form.dob) (JSNumber.int 11) = false) :
    onSubmit h form =
      if form.password = form.confirmPassword then ⟨false, []⟩
      else ⟨true, [mismatchMessage]⟩ := by
  by_cases hp : form.password = form.confirmPassword <;>
    simp [onSubmit, hage, hp, Outcome.start, Outcome.preventDefault, Outcome.alert]

theorem computeAge_of_invalid (h : Host) (s : String)
    (hnan : (newDateOfString h s).tv = JSNumber.nan) : computeAge h s = JSNumber.nan := by
  unfold computeAge
  simp only [JSDate.getFullYear, JSDate.getMonth, JSDate.getDate, hnan, newDateNow,
    newDateOfFields, JSDate.lt, JSNumber.lt, JSNumber.sub]

/-! ## Properties of the two listeners -/

/-- C1: whenever the age the listener computes is below 11, the submission is
cancelled and the only alert is the underage message, whatever the two password
fields hold. -/
theorem onSubmit_underage (h : Host) (form : Form)
    (hage : JSNumber.lt (computeAge h form.dob) (JSNumber.int 11) = true) :
    onSubmit h form =
      ⟨true, ["You are too young for Hogwarts, the lower age limit is 11 years."]⟩ := by
  simp [onSubmit, hage, Outcome.start, Outcome.preventDefault, Outcome.alert, underageMessage]

theorem onSubmit_underage_witness :
    JSNumber.lt (computeAge hostUTC "2015-06-02") (JSNumber.int 11) = true ∧
      onSubmit hostUTC ⟨"2015-06-02", "Gryffindor1", "Slytherin2"⟩ =
        ⟨true, ["You are too young for Hogwarts, the lower age limit is 11 years."]⟩ :=
  ⟨by decide, onSubmit_underage hostUTC ⟨"2015-06-02", "Gryffindor1", "Slytherin2"⟩ (by decide)⟩

/-- C2: when the computed age is a number at least 11 and the password equals
its confirmation, the listener neither cancels the submission nor shows an alert. -/
theorem onSubmit_proceeds (h : Host) (form : Form) (a : Int)
    (hage : computeAge h form.dob = JSNumber.int a) (h11 : 11 ≤ a)
    (hpw : form.password = form.confirmPassword) :
    onSubmit h form = ⟨false, []⟩ := by
  rw [onSubmit_of_age h form (by rw [hage]; exact (lt_int_eq_false a 11).mpr h11), if_pos hpw]

theorem onSubmit_proceeds_witness :
    computeAge hostUTC "2010-06-01" = JSNumber.int 14 ∧
      onSubmit hostUTC ⟨"2010-06-01", "Gryffindor1", "Gryffindor1"⟩ = ⟨false, []⟩ :=
  ⟨by decide,
    onSubmit_proceeds hostUTC ⟨"2010-06-01", "Gryffindor1", "Gryffindor1"⟩ 14 (by decide)
      (by decide) rfl⟩

/-- C3: when the computed age is a number at least 11 and the password differs
from its confirmation as a string, the listener cancels the submission and the
only alert is the mismatch message. -/
theorem onSubmit_mismatch (h : Host) (form : Form) (a : Int)
    (hage : computeAge h form.dob = JSNumber.int a) (h11 : 11 ≤ a)
    (hpw : form.password ≠ form.confirmPassword) :
    onSubmit h form = ⟨true, ["Passwords do not match!"]⟩ := by
  rw [onSubmit_of_age h form (by rw [hage]; exact (lt_int_eq_false a 11).mpr h11), if_neg hpw]
  rfl

theorem onSubmit_mismatch_witness :
    computeAge hostUTC "2010-06-01" = JSNumber.int 14 ∧
      onSubmit hostUTC ⟨"2010-06-01", "Gryffindor1", "gryffindor1"⟩ =
        ⟨true, ["Passwords do not match!"]⟩ :=
  ⟨by decide,
    onSubmit_mismatch hostUTC ⟨"2010-06-01", "Gryffindor1", "gryffindor1"⟩ 14 (by decide)
      (by decide) (by decide)⟩

/-- C4, at a failing input: five hours west of UTC, at 11:00 on 1 June 2024,
the listener computes age 11 for the date of birth 2013-06-02 and lets the form
through, where the whole years elapsed are 10; for 2015-06-02 it computes 9,
where the scenario of the specification says 8. -/
theorem computeAge_west_of_utc :
    (newDateNow hostWest).getFullYear hostWest = JSNumber.int 2024 ∧
      (newDateNow hostWest).getMonth hostWest = JSNumber.int 5 ∧
      (newDateNow hostWest).getDate hostWest = JSNumber.int 1 ∧
      computeAge hostWest "2013-06-02" = JSNumber.int 11 ∧
      specAge 2024 6 1 2013 6 2 = 10 ∧
      onSubmit hostWest ⟨"2013-06-02", "Gryffindor1", "Gryffindor1"⟩ = ⟨false, []⟩ ∧
      computeAge hostWest "2015-06-02" = JSNumber.int 9 ∧
      specAge 2024 6 1 2015 6 2 = 8 := by
  decide

/-- C5: when the date of birth has the month and day of today and a year
exactly 11 less than the current year, at any time of day, the computed age is exactly 11,
the age check passes, and the outcome is decided by the passwords alone. The
local zone is within a day of UTC and the current year is at least 100 (the
`Date` constructor reads a year from 0 to 99 as 1900 + year). -/
theorem age_on_eleventh_birthday (h : Host) (s pw cf : String) (y m d : Int)
    (hf : dateOnlyFields s = some (y, m, d)) (hv : ValidDate y m d)
    (hY : (newDateNow h).getFullYear h = JSNumber.int (y + 11))
    (hM : (newDateNow h).getMonth h = JSNumber.int (m - 1))
    (hD : (newDateNow h).getDate h = JSNumber.int d)
    (htz0 : -msPerDay ≤ h.localTZA) (htz1 : h.localTZA < msPerDay)
    (h100 : 100 ≤ y + 11) :
    computeAge h s = JSNumber.int 11 ∧
      onSubmit h ⟨s, pw, cf⟩ = if pw = cf then ⟨false, []⟩ else ⟨true, [mismatchMessage]⟩ := by
  have hage : computeAge h s = JSNumber.int 11 := by
    rw [computeAge_of_tv h s _ (newDateOfString_date h s y m d hf hv)]
    simp only [newDateNow, JSDate.getFullYear, JSDate.getMonth, JSDate.getDate,
      JSNumber.int.injEq] at hY hM hD
    obtain ⟨y0, y1, -, -, -, -⟩ := dateOnlyFields_range s y m d hf
    have hv1 : ValidDate y (m - 1 + 1) d := by rw [sub_add_cancel]; exact hv
    obtain ⟨-, gN⟩ := fields_of_time (LocalTime h.localTZA h.now)
    rw [hY, hM, hD] at gN
    rw [hY, MakeFullYear_of_le _ h100]
    obtain ⟨k0, k1⟩ := leapOfYear_range (y + 11)
    have hNeq := MakeDay_eq (y + 11) (m - 1) d (by have := hv.1; omega) (by have := hv.2.1; omega)
    have hlow := DayFromYear_le (show (100 : Int) ≤ y + 11 from h100)
    have h100v : DayFromYear 100 = -683003 := by unfold DayFromYear; omega
    have hs := monthStart_range (leapOfYear (y + 11)) (m - 1) k0 k1
      (by have := hv.1; omega) (by have := hv.2.1; omega)
    have hnow : -maxTime ≤ h.now := by
      have hd1 := hv.2.2.1
      unfold Day LocalTime at gN
      unfold maxTime
      unfold msPerDay at *
      omega
    set t := LocalTime h.localTZA (MakeDay y (m - 1) d * msPerDay) with ht
    obtain ⟨vt, -⟩ := fields_of_time t
    have hB : MakeDay (y + 11) (MonthFromTime t) (DateFromTime t) * msPerDay - h.localTZA
        ≤ maxTime :=
      birthday_in_range _ _ _ _ (by omega) (by have := vt.1; omega) (by have := vt.2.1; omega)
        (dateOfFields_le_31 _ _ _ vt) htz0
    rw [lt_birthday _ _ _ hnow hB, gN]
    rcases Day_localTime_date h.localTZA (MakeDay y (m - 1) d) htz0 htz1 with ⟨-, hP⟩ | ⟨-, hP⟩
    · obtain ⟨e1, e2, e3⟩ := fields_of_MakeDay y (m - 1) d t hv1 hP
      rw [e1, e2, e3]
      simp
    · rcases fields_of_day_before y (m - 1) d t hv1 hP with ⟨e1, v, hle⟩ | ⟨e1, e2, e3, e4, e5⟩
      · have := birthday_mono y (y + 11) _ _ _ _ v hv1 hle
        rw [e1, if_neg (by simpa using this)]
        simp
      · rw [e1, e2, e3, e4, e5]
        have a := MakeDay_eq (y + 11) 0 1 (by omega) (by omega)
        have b := MakeDay_eq (y + 11) 11 31 (by omega) (by omega)
        have c : monthStart (leapOfYear (y + 11)) 0 = 0 := by simp [monthStart]
        have c2 : monthStart (leapOfYear (y + 11)) 11 = 334 + leapOfYear (y + 11) := by
          simp [monthStart]
        rw [if_pos (by simp only [decide_eq_true_eq]; omega)]
        congr 1
        omega
  refine ⟨hage, ?_⟩
  rw [onSubmit_of_age h ⟨s, pw, cf⟩ (by rw [hage]; simp [JSNumber.lt])]

theorem age_on_eleventh_birthday_witness :
    (newDateNow hostWest).getFullYear hostWest = JSNumber.int (2013 + 11) ∧
      (newDateNow hostWest).getMonth hostWest = JSNumber.int (6 - 1) ∧
      (newDateNow hostWest).getDate hostWest = JSNumber.int 1 ∧
      computeAge hostWest "2013-06-01" = JSNumber.int 11 ∧
      onSubmit hostWest ⟨"2013-06-01", "Gryffindor1", "Slytherin2"⟩ =
        (if "Gryffindor1" = "Slytherin2" then ⟨false, []⟩ else ⟨true, [mismatchMessage]⟩) :=
  ⟨by decide, by decide, by decide,
    age_on_eleventh_birthday hostWest "2013-06-01" "Gryffindor1" "Slytherin2" 2013 6 1
      (by decide) (by decide) (by decide) (by decide) (by decide) (by decide) (by decide)
      (by decide)⟩

/-- C6: after the change listener has run with the checkbox in state `b`, every
input of the house selection has `disabled` equal to `b`, the inputs are the
same in number, value and checked state, and a second run with the same state
changes nothing. -/
theorem onSortingHatChange_sets_all (b : Bool) (inputs : List Input) :
    (∀ radio ∈ onSortingHatChange b inputs, radio.disabled = b) ∧
      (onSortingHatChange b inputs).length = inputs.length ∧
      (onSortingHatChange b inputs).map Input.value = inputs.map Input.value ∧
      (onSortingHatChange b inputs).map Input.checked = inputs.map Input.checked ∧
      onSortingHatChange b (onSortingHatChange b inputs) = onSortingHatChange b inputs := by
  refine ⟨?_, ?_, ?_, ?_, ?_⟩
  · intro radio hr
    simp only [onSortingHatChange, List.mem_map] at hr
    obtain ⟨r, -, rfl⟩ := hr
    rfl
  · simp [onSortingHatChange]
  · simp [onSortingHatChange, Function.comp_def]
  · simp [onSortingHatChange, Function.comp_def]
  · simp [onSortingHatChange, Function.comp_def]

/-- C7: when the `dob` field does not parse to a valid date, the computed age is
NaN, the comparison `age < 11` is false, and the outcome is decided by the
passwords alone: no cancellation and no alert when they are equal, cancellation
with the mismatch message when they differ. -/
theorem onSubmit_invalid_date (h : Host) (form : Form)
    (hnan : (newDateOfString h form.dob).tv = JSNumber.nan) :
    computeAge h form.dob = JSNumber.nan ∧
      JSNumber.lt (computeAge h form.dob) (JSNumber.int 11) = false ∧
      onSubmit h form =
        if form.password = form.confirmPassword then ⟨false, []⟩
        else ⟨true, ["Passwords do not match!"]⟩ := by
  have hage := computeAge_of_invalid h form.dob hnan
  have hlt : JSNumber.lt (computeAge h form.dob) (JSNumber.int 11) = false := by
    rw [hage]; rfl
  exact ⟨hage, hlt, onSubmit_of_age h form hlt⟩

theorem onSubmit_invalid_date_witness :
    (newDateOfString hostUTC "not a date").tv = JSNumber.nan ∧
      computeAge hostUTC "not a date" = JSNumber.nan ∧
      onSubmit hostUTC ⟨"not a date", "Gryffindor1", "Gryffindor1"⟩ = ⟨false, []⟩ :=
  ⟨by decide,
    (onSubmit_invalid_date hostUTC ⟨"not a date", "Gryffindor1", "Gryffindor1"⟩ (by decide)).1,
    (onSubmit_invalid_date hostUTC ⟨"not a date", "Gryffindor1", "Gryffindor1"⟩ (by decide)).2.2⟩

/-- C8: a run of the submit listener shows at most one alert, every alert is one
of the two literal messages, the submission is cancelled exactly when an alert
is shown, and the two messages are never shown in the same run. -/
theorem onSubmit_one_message (h : Host) (form : Form) :
    (onSubmit h form).alerts.length ≤ 1 ∧
      (∀ msg ∈ (onSubmit h form).alerts,
        msg = "You are too young for Hogwarts, the lower age limit is 11 years." ∨
          msg = "Passwords do not match!") ∧
      ((onSubmit h form).defaultPrevented = true ↔ (onSubmit h form).alerts ≠ []) ∧
      ¬ (underageMessage ∈ (onSubmit h form).alerts ∧
          mismatchMessage ∈ (onSubmit h form).alerts) := by
  have hne : underageMessage ≠ mismatchMessage := by decide
  unfold onSubmit
  simp only [Outcome.start, Outcome.preventDefault, Outcome.alert]
  split_ifs <;> simp [underageMessage, mismatchMessage]

/-- C9, at a failing input: five hours west of UTC the date of birth written
2013-06-02 is read back by `getFullYear`, `getMonth`, `getDate` as 1 June 2013,
a day early. -/
theorem dob_fields_west_of_utc :
    dateOnlyFields "2013-06-02" = some (2013, 6, 2) ∧
      (newDateOfString hostWest "2013-06-02").getFullYear hostWest = JSNumber.int 2013 ∧
      (newDateOfString hostWest "2013-06-02").getMonth hostWest = JSNumber.int 5 ∧
      (newDateOfString hostWest "2013-06-02").getDate hostWest = JSNumber.int 1 := by
  decide

/-- C10: the age gate is monotone in the date of birth. For two calendar dates
of birth written `YYYY-MM-DD`, the first not later than the second (29 February
included, whose birthday is moved to 1 March in a year that is not a leap year),
the listener computes for the first an age at least the age it computes for the
second, so the earlier-born passes the age check whenever the later-born does.
The local zone is at most a day behind UTC and the clock shows a year up to
275759, the last year all of whose days are time values. -/
theorem computeAge_antitone (h : Host) (s1 s2 : String) (y1 m1 d1 y2 m2 d2 : Int)
    (hf1 : dateOnlyFields s1 = some (y1, m1, d1)) (hv1 : ValidDate y1 m1 d1)
    (hf2 : dateOnlyFields s2 = some (y2, m2, d2)) (hv2 : ValidDate y2 m2 d2)
    (hle : y1 < y2 ∨ (y1 = y2 ∧ (m1 < m2 ∨ (m1 = m2 ∧ d1 ≤ d2))))
    (htz0 : -msPerDay ≤ h.localTZA)
    (hY : YearFromTime (LocalTime h.localTZA h.now) ≤ 275759) :
    ∃ a1 a2, computeAge h s1 = JSNumber.int a1 ∧ computeAge h s2 = JSNumber.int a2 ∧ a2 ≤ a1 ∧
      (JSNumber.lt (computeAge h s2) (JSNumber.int 11) = false →
        JSNumber.lt (computeAge h s1) (JSNumber.int 11) = false) := by
  have e1 := computeAge_of_tv h s1 _ (newDateOfString_date h s1 y1 m1 d1 hf1 hv1)
  have e2 := computeAge_of_tv h s2 _ (newDateOfString_date h s2 y2 m2 d2 hf2 hv2)
  have hP := MakeDay_lex y1 m1 d1 y2 m2 d2 hv1 hv2 hle
  set t1 := LocalTime h.localTZA (MakeDay y1 (m1 - 1) d1 * msPerDay) with ht1
  set t2 := LocalTime h.localTZA (MakeDay y2 (m2 - 1) d2 * msPerDay) with ht2
  set Y := YearFromTime (LocalTime h.localTZA h.now) with hYdef
  have ht : t1 ≤ t2 := by
    rw [ht1, ht2]; unfold LocalTime msPerDay; omega
  have hD := Day_mono ht
  have hyy : YearFromTime t1 ≤ YearFromTime t2 := yearOfDay_mono hD
  obtain ⟨v1, g1⟩ := fields_of_time t1
  obtain ⟨v2, g2⟩ := fields_of_time t2
  have key : YearFromTime t1 = YearFromTime t2 →
      JSNumber.lt (JSNumber.int h.now) (TimeClip (UTC h.localTZA (MakeDate
        (MakeDay (MakeFullYear Y) (MonthFromTime t1) (DateFromTime t1)) 0))) = true →
      JSNumber.lt (JSNumber.int h.now) (TimeClip (UTC h.localTZA (MakeDate
        (MakeDay (MakeFullYear Y) (MonthFromTime t2) (DateFromTime t2)) 0))) = true := by
    intro hy hlt
    rw [hy] at v1 g1
    have hB := birthday_mono (YearFromTime t2) (MakeFullYear Y) _ _ _ _ v1 v2 (by omega)
    refine lt_clip_mono _ _ _ _ hB ?_ hlt
    exact birthday_in_range _ _ _ _ (MakeFullYear_le Y hY) (by have := v2.1; omega)
      (by have := v2.2.1; omega) (dateOfFields_le_31 _ _ _ v2) htz0
  have main : Y - YearFromTime t2 -
      (if JSNumber.lt (JSNumber.int h.now) (TimeClip (UTC h.localTZA (MakeDate
        (MakeDay (MakeFullYear Y) (MonthFromTime t2) (DateFromTime t2)) 0))) = true
        then 1 else 0) ≤
      Y - YearFromTime t1 -
      (if JSNumber.lt (JSNumber.int h.now) (TimeClip (UTC h.localTZA (MakeDate
        (MakeDay (MakeFullYear Y) (MonthFromTime t1) (DateFromTime t1)) 0))) = true
        then 1 else 0) := by
    by_cases hy : YearFromTime t1 = YearFromTime t2
    · have := key hy
      rw [hy]
      split_ifs with c2 c1 c1 <;> first | omega | exact absurd (this c1) c2
    · have : YearFromTime t1 < YearFromTime t2 := lt_of_le_of_ne hyy hy
      split_ifs <;> omega
  refine ⟨_, _, e1, e2, main, ?_⟩
  rw [e1, e2, lt_int_eq_false, lt_int_eq_false]
  exact fun h11 => le_trans h11 main

theorem computeAge_antitone_witness :
    computeAge hostEast "2012-02-29" = JSNumber.int 11 ∧
      computeAge hostEast "2012-03-01" = JSNumber.int 11 ∧
      ∃ a1 a2, computeAge hostEast "2012-02-29" = JSNumber.int a1 ∧
        computeAge hostEast "2012-03-01" = JSNumber.int a2 ∧ a2 ≤ a1 ∧
        (JSNumber.lt (computeAge hostEast "2012-03-01") (JSNumber.int 11) = false →
          JSNumber.lt (computeAge hostEast "2012-02-29") (JSNumber.int 11) = false) :=
  ⟨by decide, by decide,
    computeAge_antitone hostEast "2012-02-29" "2012-03-01" 2012 2 29 2012 3 1
      (by decide) (by decide) (by decide) (by decide) (by decide) (by decide) (by decide)⟩

end Hogwarts
